import Mathlib

/-!
Verification development for the pulmo-master-ai RAG pipeline
(`scripts/rag/guideline_ingester.py`, `scripts/rag/batch_indexer.py`,
`scripts/rag/diff_analysis.py`).

Python strings are modelled as `List Char` (named `Str`); machine floats
are modelled as real numbers where arithmetic matters and a type
parameter where it does not.  External fallible services (the embedding
API, the classification oracle, the JSON parser of the `json` stdlib
module) are parameters of the pipeline functions, as they are external
collaborators of the code under verification.
-/

set_option maxHeartbeats 1000000
set_option maxRecDepth 100000

abbrev Str := List Char

/-- Python `str.strip()`: drop leading and trailing whitespace. -/
def pyStrip (s : Str) : Str :=
  ((s.dropWhile Char.isWhitespace).reverse.dropWhile Char.isWhitespace).reverse

/-- Python `str.lower()` (ASCII case folding suffices for the inputs used). -/
def pyLower (s : Str) : Str := s.map Char.toLower

/-- `'\n'.join`-style join used to reassemble line groups. -/
def joinLines (ls : List Str) : Str := List.intercalate ['\n'] ls

/-- `' '.join(words)` from Python. -/
def joinSp (ws : List Str) : Str := List.intercalate [' '] ws

/-- Split a string at `'\n'` characters, like Python line splitting under
`re.MULTILINE` anchors.  Always returns at least one (possibly empty) line. -/
def splitOnNl : Str → List Str
  | [] => [[]]
  | c :: cs =>
    if c = '\n' then [] :: splitOnNl cs
    else
      match splitOnNl cs with
      | [] => [[c]]
      | h :: t => (c :: h) :: t

/-- Python `text.split()` (no separator): maximal non-whitespace runs.
`acc` is the word currently being accumulated. -/
def pySplitGo : List Char → Str → List Str
  | [], acc => if acc.isEmpty then [] else [acc]
  | c :: cs, acc =>
    if c.isWhitespace then
      if acc.isEmpty then pySplitGo cs [] else acc :: pySplitGo cs []
    else pySplitGo cs (acc ++ [c])

def pySplit (s : Str) : List Str := pySplitGo s []

/-- Python `s.replace(pat, repl)`: leftmost, non-overlapping, all
occurrences.  `fuel` bounds the recursion (the scanned suffix shrinks at
every step, so `s.length` fuel is always enough). -/
def replaceAllF (pat repl : Str) : Nat → Str → Str
  | 0, s => s
  | _ + 1, [] => []
  | fuel + 1, c :: cs =>
    if pat.isPrefixOf (c :: cs) ∧ pat ≠ [] then
      repl ++ replaceAllF pat repl fuel ((c :: cs).drop pat.length)
    else
      c :: replaceAllF pat repl fuel cs

def replaceAll (pat repl s : Str) : Str := replaceAllF pat repl s.length s

/- ---------------------------------------------------------------------
Data model shared by the three scripts: the chunk objects written to
`chunks.jsonl` / `guideline_chunks.jsonl` (`{id, text, metadata}`).
--------------------------------------------------------------------- -/

structure ChunkMeta where
  source : Str
  type : Str
  topic : Str
deriving DecidableEq, Repr

structure GChunk where
  id : Str
  text : Str
  metadata : ChunkMeta
deriving DecidableEq, Repr

/- ---------------------------------------------------------------------
`scripts/rag/batch_indexer.py`
--------------------------------------------------------------------- -/

/-- Outcome of one `client.models.embed_content` call, classified the way
`generate_batch_embeddings` classifies exceptions: success, a rate-limit
class error (`'rate'`/`'429'`/`'quota'` in the message), or any other
exception. -/
inductive AttemptResult (V : Type) where
  | ok (v : V)
  | rateLimit
  | otherError

/-- How `generate_batch_embeddings` terminates: `exhausted` is the final
`raise Exception("Failed after retries")` after the loop, `raised` is the
re-raise of a non-rate-limit exception on the last attempt. -/
inductive BatchErr where
  | exhausted
  | raised
deriving DecidableEq, Repr

structure RetryOutcome (V : Type) where
  result : Except BatchErr V
  delays : List Nat
  calls : Nat

/-- The `for attempt in range(retries)` loop of `generate_batch_embeddings`.
On a rate-limit error it sleeps `2 ** (attempt + 1)` seconds and retries
(also after the final attempt, before falling through to the terminal
raise); on another error it re-raises on the last attempt and otherwise
sleeps 1 second.  `delays` records the sleeps, `calls` the API calls. -/
def retryGo (call : Nat → AttemptResult V) (retries : Nat) :
    List Nat → List Nat → Nat → RetryOutcome V
  | [], delays, calls => ⟨.error .exhausted, delays, calls⟩
  | attempt :: rest, delays, calls =>
    match call attempt with
    | .ok v => ⟨.ok v, delays, calls + 1⟩
    | .rateLimit => retryGo call retries rest (delays ++ [2 ^ (attempt + 1)]) (calls + 1)
    | .otherError =>
      if attempt = retries - 1 then ⟨.error .raised, delays, calls + 1⟩
      else retryGo call retries rest (delays ++ [1]) (calls + 1)

def generate_batch_embeddings (call : Nat → AttemptResult V) (retries : Nat) :
    RetryOutcome V :=
  retryGo call retries (List.range retries) [] 0

/-- One batch iteration of `main` in `batch_indexer.py`: take up to
`BATCH_SIZE = 100` chunks, embed their texts in one call (with retries),
and on success append ids and vectors pairwise in order (`for j, chunk in
enumerate(batch)` indexes `batch_embeddings[j]`, which appends exactly
`min(len(batch), len(batch_embeddings))` id/vector pairs — `List.zip`
semantics).  A failed batch is caught (`except ... print`) and skipped.
`fuel` bounds the iteration count; each step consumes at least one chunk,
so `chunks.length` fuel is always enough. -/
def batchLoop (api : List Str → Nat → AttemptResult (List V)) :
    Nat → List GChunk → List Str × List V
  | 0, _ => ([], [])
  | _ + 1, [] => ([], [])
  | fuel + 1, chunks@(_ :: _) =>
    let batch := chunks.take 100
    let texts := batch.map (·.text)
    let rest := batchLoop api fuel (chunks.drop 100)
    match (generate_batch_embeddings (api texts) 3).result with
    | .ok embs =>
      ((batch.zip embs).map (fun p => p.1.id) ++ rest.1,
       (batch.zip embs).map (fun p => p.2) ++ rest.2)
    | .error _ => rest

/-- `main` of `batch_indexer.py`, restricted to the in-memory index it
builds: the parallel `embeddings_data['ids']` and
`embeddings_data['embeddings']` lists. -/
def batch_indexer_main (api : List Str → Nat → AttemptResult (List V))
    (chunks : List GChunk) : List Str × List V :=
  batchLoop api chunks.length chunks

/- Helper lemmas for the indexer claims. -/

theorem retryGo_ok_of_call {call : Nat → AttemptResult V} {retries : Nat} :
    ∀ {attempts delays calls v},
      (retryGo call retries attempts delays calls).result = .ok v →
      ∃ a, call a = .ok v := by
  intro attempts
  induction attempts with
  | nil => intro _ _ _ h; simp [retryGo] at h
  | cons a rest ih =>
    intro delays calls v h
    simp only [retryGo] at h
    rcases hc : call a with w | _ | _ <;> rw [hc] at h
    · simp only [Except.ok.injEq] at h
      exact ⟨a, h ▸ hc⟩
    · exact ih h
    · by_cases hl : a = retries - 1
      · simp [hl] at h
      · rw [if_neg hl] at h; exact ih h

theorem zip_map_self {α β : Type} (f : α → β) (l : List α) :
    l.zip (l.map f) = l.map (fun x => (x, f x)) := by
  induction l with
  | nil => rfl
  | cons a t ih => simp [ih]

theorem batchLoop_spec {V : Type} (embedFn : Str → V)
    (api : List Str → Nat → AttemptResult (List V))
    (hapi : ∀ ts n r, api ts n = .ok r → r = ts.map embedFn) :
    ∀ fuel chunks, chunks.length ≤ fuel →
      ∃ sel : List GChunk, sel.Sublist chunks ∧
        (batchLoop api fuel chunks).1 = sel.map (fun c => c.id) ∧
        (batchLoop api fuel chunks).2 = sel.map (fun c => embedFn c.text) := by
  intro fuel
  induction fuel with
  | zero =>
    intro chunks h
    have : chunks = [] := List.length_eq_zero.mp (Nat.le_zero.mp h)
    subst this
    exact ⟨[], List.Sublist.refl _, rfl, rfl⟩
  | succ fuel ih =>
    intro chunks h
    match chunks with
    | [] => exact ⟨[], List.Sublist.refl _, rfl, rfl⟩
    | c :: cs =>
      have hlen : (List.drop 100 (c :: cs)).length ≤ fuel := by
        simp only [List.length_drop]
        have := h
        simp only [List.length_cons] at this
        omega
      obtain ⟨sel, hsub, hids, hvecs⟩ := ih (List.drop 100 (c :: cs)) hlen
      rcases hres : (generate_batch_embeddings (api ((List.take 100 (c :: cs)).map (·.text))) 3).result with e | embs
      · -- failed batch: skipped, the recursive result stands
        refine ⟨sel, ?_, ?_, ?_⟩
        · exact hsub.trans (List.drop_sublist _ _)
        · show (batchLoop api (fuel + 1) (c :: cs)).1 = _
          simp only [batchLoop, hres]
          exact hids
        · show (batchLoop api (fuel + 1) (c :: cs)).2 = _
          simp only [batchLoop, hres]
          exact hvecs
      · -- successful batch: the API reply is the map of embedFn over the texts
        obtain ⟨a, hca⟩ := retryGo_ok_of_call hres
        have hembs : embs = ((List.take 100 (c :: cs)).map (·.text)).map embedFn :=
          hapi _ _ _ hca
        have hzip : (List.take 100 (c :: cs)).zip embs =
            (List.take 100 (c :: cs)).map (fun x => (x, embedFn x.text)) := by
          rw [hembs, List.map_map]
          exact zip_map_self _ _
        refine ⟨List.take 100 (c :: cs) ++ sel, ?_, ?_, ?_⟩
        · have h1 : (List.take 100 (c :: cs) ++ sel).Sublist
              (List.take 100 (c :: cs) ++ List.drop 100 (c :: cs)) :=
            List.Sublist.append_left hsub _
          simpa [List.take_append_drop] using h1
        · show (batchLoop api (fuel + 1) (c :: cs)).1 = _
          simp only [batchLoop, hres]
          rw [hzip, List.map_map, hids, List.map_append]
          rfl
        · show (batchLoop api (fuel + 1) (c :: cs)).2 = _
          simp only [batchLoop, hres]
          rw [hzip, List.map_map, hvecs, List.map_append]
          rfl

/- ---------------------------------------------------------------------
Claim C2 — retry policy of `generate_batch_embeddings`.
--------------------------------------------------------------------- -/

/-- A call sequence that fails with rate-limit errors on the first `N`
attempts and succeeds afterwards. -/
def rateThenOk (N : Nat) (v : V) : Nat → AttemptResult V :=
  fun t => if t < N then .rateLimit else .ok v

/-- A call sequence that always fails with a rate-limit error. -/
def alwaysRate (V : Type) : Nat → AttemptResult V :=
  fun _ => .rateLimit

/-- C2: with rate-limit failures on the first `N` attempts followed by
success, `generate_batch_embeddings` (3 retries, as called by `main`)
returns the embeddings iff `N < 3`; under unbroken rate-limit failure it
makes exactly 3 calls, raises, sleeps `[2, 4, 8]` seconds (base delay
doubling, monotonically non-decreasing), and the failure surfaces as a
batch-level error: a run whose every call is rate-limited indexes
nothing, yet completes. -/
theorem generate_batch_embeddings_retry_policy (V : Type) (N : Nat) (v : V) :
    ((generate_batch_embeddings (rateThenOk N v) 3).result = .ok v ↔ N < 3)
    ∧ (generate_batch_embeddings (alwaysRate V) 3).result = .error .exhausted
    ∧ (generate_batch_embeddings (alwaysRate V) 3).calls = 3
    ∧ (generate_batch_embeddings (alwaysRate V) 3).delays = [2, 4, 8]
    ∧ (generate_batch_embeddings (alwaysRate V) 3).delays.Chain' (· ≤ ·)
    ∧ ∀ chunks : List GChunk,
        batch_indexer_main (V := List V) (fun _ _ => .rateLimit) chunks = ([], []) := by
  refine ⟨?_, ?_, ?_, ?_, ?_, ?_⟩
  · constructor
    · intro h
      by_contra hN
      push_neg at hN
      have h0 : rateThenOk N v 0 = .rateLimit := by simp [rateThenOk]; omega
      have h1 : rateThenOk N v 1 = .rateLimit := by simp [rateThenOk]; omega
      have h2 : rateThenOk N v 2 = .rateLimit := by simp [rateThenOk]; omega
      simp [generate_batch_embeddings, retryGo, List.range_succ, h0, h1, h2] at h
    · intro hN
      interval_cases N <;>
        simp [generate_batch_embeddings, retryGo, List.range_succ, rateThenOk]
  · simp [generate_batch_embeddings, retryGo, List.range_succ, alwaysRate]
  · simp [generate_batch_embeddings, retryGo, List.range_succ, alwaysRate]
  · simp [generate_batch_embeddings, retryGo, List.range_succ, alwaysRate]
  · simp [generate_batch_embeddings, retryGo, List.range_succ, alwaysRate]
  · intro chunks
    suffices h : ∀ fuel cs, batchLoop (V := List V) (fun _ _ => .rateLimit) fuel cs = ([], []) by
      exact h chunks.length chunks
    intro fuel
    induction fuel with
    | zero => intro cs; rfl
    | succ fuel ih =>
      intro cs
      match cs with
      | [] => rfl
      | c :: cs =>
        simp only [batchLoop]
        split
        · rename_i embs heq
          simp [generate_batch_embeddings, retryGo, List.range_succ] at heq
        · exact ih _

/- ---------------------------------------------------------------------
Claim C3 — index invariant of `batch_indexer.py`'s `main`.
--------------------------------------------------------------------- -/

/-- C3: after any indexing run — including runs where some batches
fail and are skipped — the `ids` and `embeddings` lists have equal
length; they are the id list and (API-returned) vector list of one
order-preserving selection `sel` of the input chunks, so the i-th id
corresponds to the i-th vector in original chunk order; and distinct
input ids give distinct stored ids.  `hapi` states that a successful
embedding call returns exactly the vectors of the texts it was given. -/
theorem batch_indexer_index_invariant {V : Type} (embedFn : Str → V)
    (api : List Str → Nat → AttemptResult (List V)) (chunks : List GChunk)
    (hapi : ∀ ts n r, api ts n = .ok r → r = ts.map embedFn) :
    (batch_indexer_main api chunks).1.length = (batch_indexer_main api chunks).2.length
    ∧ (∃ sel : List GChunk, sel.Sublist chunks ∧
        (batch_indexer_main api chunks).1 = sel.map (fun c => c.id) ∧
        (batch_indexer_main api chunks).2 = sel.map (fun c => embedFn c.text))
    ∧ ((chunks.map (fun c => c.id)).Nodup → (batch_indexer_main api chunks).1.Nodup) := by
  obtain ⟨sel, hsub, hids, hvecs⟩ :=
    batchLoop_spec embedFn api hapi chunks.length chunks (Nat.le_refl _)
  refine ⟨?_, ⟨sel, hsub, hids, hvecs⟩, ?_⟩
  · rw [show (batch_indexer_main api chunks).1 = sel.map (fun c => c.id) from hids,
      show (batch_indexer_main api chunks).2 = sel.map (fun c => embedFn c.text) from hvecs]
    simp
  · intro hnd
    rw [show (batch_indexer_main api chunks).1 = sel.map (fun c => c.id) from hids]
    exact hnd.sublist (hsub.map _)

/-- Witness for C3 at a concrete input: two chunks, one successful batch,
an embedding function returning each text's length. -/
theorem batch_indexer_index_invariant_witness :
    ((([⟨"c1".data, "ab".data, ⟨"s".data, "g".data, "t".data⟩⟩,
          ⟨"c2".data, "xyz".data, ⟨"s".data, "g".data, "t".data⟩⟩] : List GChunk).map
            (fun c => c.id)).Nodup)
    ∧ (batch_indexer_main (fun ts _ => AttemptResult.ok (ts.map List.length))
        [⟨"c1".data, "ab".data, ⟨"s".data, "g".data, "t".data⟩⟩,
         ⟨"c2".data, "xyz".data, ⟨"s".data, "g".data, "t".data⟩⟩]).1.length =
      (batch_indexer_main (fun ts _ => AttemptResult.ok (ts.map List.length))
        [⟨"c1".data, "ab".data, ⟨"s".data, "g".data, "t".data⟩⟩,
         ⟨"c2".data, "xyz".data, ⟨"s".data, "g".data, "t".data⟩⟩]).2.length := by
  refine ⟨by decide, ?_⟩
  exact (batch_indexer_index_invariant List.length
    (fun ts _ => AttemptResult.ok (ts.map List.length))
    [⟨"c1".data, "ab".data, ⟨"s".data, "g".data, "t".data⟩⟩,
     ⟨"c2".data, "xyz".data, ⟨"s".data, "g".data, "t".data⟩⟩]
    (fun ts n r h => by injection h with h2; exact h2.symm)).1

/- ---------------------------------------------------------------------
`scripts/rag/guideline_ingester.py` — `GuidelineChunker.chunk_by_headers`.

The six header regexes are line-anchored (`(?m)^(...)$`) and
`re.split(pattern, text)` is modelled line-wise: the text is split into
lines, each line is classified by a per-pattern full-line matcher, and
`re.split`'s output list `[pre, captured1, between1, captured2, ...]` is
rebuilt from the line groups (the boundary newlines that `re.split`
leaves on the non-captured parts are removed by the `part.strip()` the
loop performs before using a part, so joining the inner lines with
`'\n'` is equivalent after stripping).

Caveat: in CPython `\s` — also inside `[A-Z\s]` and `[:\s-]` — matches
`'\n'`, so a real header match can span several lines (the all-caps
pattern can capture, e.g., `ABC` newline `DEFGHI` as one header).  This
line-wise model agrees with CPython whenever no match crosses a line
boundary — in particular on every concrete input evaluated below, whose
matches are single-line — and the claims proved over it do not depend on
the divergent case: C4's amended statement concerns the
split-processing loop, into which the split semantics do not enter, and
C5's conclusion concerns the fallback taken when the pattern phase
yields nothing.
--------------------------------------------------------------------- -/

/-- Matcher for the regex fragment `\s+[A-Z].+` (whitespace run, an
upper-case letter, at least one further character). -/
def afterWsUpperRest (r : Str) : Bool :=
  let ws := r.takeWhile Char.isWhitespace
  match r.dropWhile Char.isWhitespace with
  | [] => false
  | c :: rest => !ws.isEmpty && c.isUpper && !rest.isEmpty

/-- Full-line matcher for `^(\d+\.\d+\s+[A-Z].+)$` (pattern `1.1 Topic Name`). -/
def lineMatchesNumDotNum (s : Str) : Bool :=
  let d1 := s.takeWhile Char.isDigit
  match s.dropWhile Char.isDigit with
  | '.' :: r2 =>
    let d2 := r2.takeWhile Char.isDigit
    !d1.isEmpty && !d2.isEmpty && afterWsUpperRest (r2.dropWhile Char.isDigit)
  | _ => false

/-- Matcher for the regex fragment `\s+\d+[:\s-]+.+` following the
`Chapter`/`CHAPTER` literal: whitespace run, digit run, then at least one
`[:\s-]` character followed by at least one further character (the
backtracking of `[:\s-]+.+` succeeds iff the first character after the
digits is in the class and at least two characters remain). -/
def chapterTail (r0 : Str) : Bool :=
  let ws := r0.takeWhile Char.isWhitespace
  let r1 := r0.dropWhile Char.isWhitespace
  let d := r1.takeWhile Char.isDigit
  match r1.dropWhile Char.isDigit with
  | a :: rest =>
    !ws.isEmpty && !d.isEmpty && (a == ':' || a.isWhitespace || a == '-') && !rest.isEmpty
  | [] => false

/-- Full-line matcher for `^(Chapter\s+\d+[:\s-]+.+)$`. -/
def lineMatchesChapter (s : Str) : Bool :=
  "Chapter".data.isPrefixOf s && chapterTail (s.drop 7)

/-- Full-line matcher for `^(CHAPTER\s+\d+[:\s-]+.+)$`. -/
def lineMatchesChapterCaps (s : Str) : Bool :=
  "CHAPTER".data.isPrefixOf s && chapterTail (s.drop 7)

/-- Line matcher for `^([A-Z][A-Z\s]{5,40})$` (all-caps headers): an
upper-case letter followed by 5 to 40 characters drawn from upper-case
letters and whitespace, covering one whole line.  Because `\s` matches
`'\n'`, CPython can also match this pattern across lines; see the
caveat in the section comment — the concrete inputs in this file contain
no such cross-line match. -/
def lineMatchesAllCaps (s : Str) : Bool :=
  match s with
  | [] => false
  | c :: rest =>
    c.isUpper && decide (5 ≤ rest.length) && decide (rest.length ≤ 40)
      && rest.all (fun d => d.isUpper || d.isWhitespace)

/-- Full-line matcher for `^(\d+\.\s+[A-Z].+)$` (pattern `1. Topic Name`). -/
def lineMatchesNumDot (s : Str) : Bool :=
  let d1 := s.takeWhile Char.isDigit
  match s.dropWhile Char.isDigit with
  | '.' :: r2 => !d1.isEmpty && afterWsUpperRest r2
  | _ => false

/-- Captured text of the alternative `Key\s+Points?` at the start of a
line, if it matches there. -/
def keyPointsCapture (s : Str) : Option Str :=
  if "Key".data.isPrefixOf s then
    let r0 := s.drop 3
    let ws := r0.takeWhile Char.isWhitespace
    let r1 := r0.dropWhile Char.isWhitespace
    if ws.isEmpty then none
    else if "Points".data.isPrefixOf r1 then some ("Key".data ++ ws ++ "Points".data)
    else if "Point".data.isPrefixOf r1 then some ("Key".data ++ ws ++ "Point".data)
    else none
  else none

/-- Captured group of
`^(Key\s+Points?|Recommendations?|Summary|Definition|Management|Treatment|Diagnosis).*$`
at the start of a line: alternatives are tried left to right, the
optional `s?` is greedy, and the trailing `.*` (outside the group) always
matches the rest of the line. -/
def capture6 (s : Str) : Option Str :=
  match keyPointsCapture s with
  | some c => some c
  | none =>
    if "Recommendations".data.isPrefixOf s then some "Recommendations".data
    else if "Recommendation".data.isPrefixOf s then some "Recommendation".data
    else if "Summary".data.isPrefixOf s then some "Summary".data
    else if "Definition".data.isPrefixOf s then some "Definition".data
    else if "Management".data.isPrefixOf s then some "Management".data
    else if "Treatment".data.isPrefixOf s then some "Treatment".data
    else if "Diagnosis".data.isPrefixOf s then some "Diagnosis".data
    else none

/-- The six header patterns of `chunk_by_headers`, in source order. -/
inductive Pat where
  | numDotNum
  | chapterTitle
  | chapterCaps
  | allCaps
  | numDot
  | keywordHeader
deriving DecidableEq, Repr

def patterns : List Pat :=
  [.numDotNum, .chapterTitle, .chapterCaps, .allCaps, .numDot, .keywordHeader]

/-- Whether a whole line is a match of the given pattern (the split
points of `re.split(pattern, text)`). -/
def lineMatches : Pat → Str → Bool
  | .numDotNum, s => lineMatchesNumDotNum s
  | .chapterTitle, s => lineMatchesChapter s
  | .chapterCaps, s => lineMatchesChapterCaps s
  | .allCaps, s => lineMatchesAllCaps s
  | .numDot, s => lineMatchesNumDot s
  | .keywordHeader, s => (capture6 s).isSome

/-- The captured group for a matching line: the whole line for the five
fully-parenthesised patterns, only the keyword for the sixth (whose `.*`
lies outside the group, so the rest of the line is consumed but not
captured). -/
def captureOf : Pat → Str → Str
  | .keywordHeader, s => (capture6 s).getD []
  | _, s => s

/-- `re.match(pattern, part)` on an already-stripped part: `re.match`
anchors at the start and each pattern ends at a `$`, so it succeeds iff
the part's first line matches the pattern. -/
def reMatch (p : Pat) (part : Str) : Bool :=
  lineMatches p (part.takeWhile (fun c => c ≠ '\n'))

/-- Rebuild `re.split(pattern, text)`'s result from the classified lines:
`seg` accumulates the lines of the segment currently being scanned; a
matching line flushes the segment and emits the captured group. -/
def splitsGo (p : Pat) : List Str → List Str → List Str
  | [], seg => [joinLines seg]
  | l :: rest, seg =>
    if lineMatches p l then joinLines seg :: captureOf p l :: splitsGo p rest []
    else splitsGo p rest (seg ++ [l])

def splitByPattern (p : Pat) (text : Str) : List Str :=
  splitsGo p (splitOnNl text) []

/-- `os.path.basename`. -/
def basename (s : Str) : Str := (s.reverse.takeWhile (fun c => c ≠ '/')).reverse

/-- `os.path.basename(source).replace('.pdf', '')` used for chunk ids. -/
def srcNoPdf (src : Str) : Str := replaceAll ".pdf".data [] (basename src)

/-- A chunk emitted by the header loop: id
`guide_{basename-no-pdf}_{len(chunks)}`, text prefixed with the synthetic
`TOPIC:`/`SOURCE:` header lines. -/
def mkHeaderChunk (src hdr part : Str) (n : Nat) : GChunk :=
  { id := "guide_".data ++ srcNoPdf src ++ "_".data ++ (Nat.repr n).data
    text := "TOPIC: ".data ++ hdr ++ "\nSOURCE: ".data ++ basename src ++ "\n\n".data ++ part
    metadata :=
      { source := basename src
        type := "guideline".data
        topic := hdr } }

/-- The `for i, part in enumerate(splits)` body for `i ≥ 1`: strip the
part; a part that `re.match`es the pattern becomes the current header;
otherwise it becomes a chunk iff its stripped length exceeds 50. -/
def ppGo (p : Pat) (src : Str) : Str → List Str → List GChunk → List GChunk
  | _, [], acc => acc
  | hdr, part :: tl, acc =>
    let pt := pyStrip part
    if reMatch p pt then ppGo p src pt tl acc
    else if 50 < pt.length then ppGo p src hdr tl (acc ++ [mkHeaderChunk src hdr pt acc.length])
    else ppGo p src hdr tl acc

/-- Process the split list of one pattern.  `enumerate` starts at 0 and
the loop body begins with `if i == 0: continue`, so the first element —
the text preceding the first match — is dropped unconditionally, and the
initial `current_header = "Introduction"` applies to the remaining parts. -/
def processParts (p : Pat) (src : Str) (splits : List Str) : List GChunk :=
  match splits with
  | [] => []
  | _ :: rest => ppGo p src "Introduction".data rest []

/-- The `for pattern in patterns` loop: patterns are tried in order and
the loop breaks at the first pattern that yields at least one chunk. -/
def patternChunksGo (text src : Str) : List Pat → List GChunk
  | [] => []
  | p :: ps =>
    let cs := processParts p src (splitByPattern p text)
    if cs.isEmpty then patternChunksGo text src ps else cs

def patternChunks (text src : Str) : List GChunk := patternChunksGo text src patterns

/-- A fallback chunk: topic `Section {len(chunks)+1}`, id numbered with
`len(chunks)`. -/
def mkSectionChunk (src ct : Str) (n : Nat) : GChunk :=
  { id := "guide_".data ++ srcNoPdf src ++ "_".data ++ (Nat.repr n).data
    text := "TOPIC: Section ".data ++ (Nat.repr (n + 1)).data ++ "\nSOURCE: ".data
      ++ basename src ++ "\n\n".data ++ ct
    metadata :=
      { source := basename src
        type := "guideline".data
        topic := "Section ".data ++ (Nat.repr (n + 1)).data } }

/-- The fallback loop `for i in range(0, len(words), chunk_size // 5)`
(step `2000 // 5 = 400`): join each 400-word window with single spaces
and keep it iff the joined text is longer than 100 characters.  `fuel`
bounds the iteration count; each step consumes at least 400 ≥ 1 words,
so `words.length` fuel is always enough. -/
def fallbackGo (src : Str) : Nat → List Str → List GChunk → List GChunk
  | 0, _, acc => acc
  | _ + 1, [], acc => acc
  | fuel + 1, words@(_ :: _), acc =>
    fallbackGo src fuel (words.drop (2000 / 5))
      (if 100 < (joinSp (words.take (2000 / 5))).length then
        acc ++ [mkSectionChunk src (joinSp (words.take (2000 / 5))) acc.length]
      else acc)

/-- `GuidelineChunker.chunk_by_headers(text, source)`: try the header
patterns in order, and if none yields a chunk and the text is longer than
200 characters, fall back to fixed-size windowing. -/
def chunk_by_headers (text src : Str) : List GChunk :=
  let chunks := patternChunks text src
  if chunks.isEmpty && decide (200 < text.length) then
    fallbackGo src (pySplit text).length (pySplit text) []
  else chunks

/- Helper lemmas for the segmenter claims. -/

theorem fallbackGo_length_mono (src : Str) : ∀ fuel words acc,
    acc.length ≤ (fallbackGo src fuel words acc).length := by
  intro fuel
  induction fuel with
  | zero => intro _ _; exact Nat.le_refl _
  | succ fuel ih =>
    intro words acc
    match words with
    | [] => exact Nat.le_refl _
    | w :: ws =>
      simp only [fallbackGo]
      by_cases h : 100 < (joinSp ((w :: ws).take (2000 / 5))).length
      · rw [if_pos h]
        calc acc.length
            ≤ (acc ++ [mkSectionChunk src (joinSp ((w :: ws).take (2000 / 5))) acc.length]).length := by
              simp
          _ ≤ _ := ih _ _
      · rw [if_neg h]
        exact ih _ _

/- ---------------------------------------------------------------------
Claim C4 — the text preceding the first header match.
--------------------------------------------------------------------- -/

def c4pre : Str := "this is the preliminary passage of the document with no label".data

def c4text : Str :=
  c4pre ++ "\n".data ++ "1.1 Overview Text".data ++ "\n".data
    ++ "this body section surely contains more than fifty characters total".data

def c4src : Str := "guide.pdf".data

/-- Counterexample to C4: in `c4text` the pattern `1.1 Topic Name`
matches and the text preceding the first match has trimmed length 61 >
50, yet the output contains no chunk labeled `Introduction` and no chunk
containing the preceding text — `for i, part in enumerate(splits): if
i == 0: continue` drops the pre-match text unconditionally. -/
theorem introduction_chunk_counterexample :
    50 < (pyStrip c4pre).length
    ∧ patterns.any (fun p => (splitOnNl c4text).any (fun l => lineMatches p l)) = true
    ∧ chunk_by_headers c4text c4src ≠ []
    ∧ (chunk_by_headers c4text c4src).all (fun c =>
        !(c.metadata.topic == "Introduction".data) && !(decide (c4pre <:+: c.text))) = true := by
  decide

/-- Every chunk the split-processing loop emits is built from one of the
parts after the first: membership structure of `ppGo`'s output. -/
theorem ppGo_mem (p : Pat) (src : Str) : ∀ (parts : List Str) (hdr : Str)
    (acc : List GChunk) (c : GChunk), c ∈ ppGo p src hdr parts acc →
    c ∈ acc ∨ ∃ part ∈ parts, ∃ h n, c = mkHeaderChunk src h (pyStrip part) n := by
  intro parts
  induction parts with
  | nil => intro hdr acc c hc; exact Or.inl hc
  | cons part tl ih =>
    intro hdr acc c hc
    simp only [ppGo] at hc
    by_cases h1 : reMatch p (pyStrip part) = true
    · rw [if_pos h1] at hc
      rcases ih _ _ _ hc with h | ⟨q, hq, hh, n, he⟩
      · exact Or.inl h
      · exact Or.inr ⟨q, List.mem_cons_of_mem _ hq, hh, n, he⟩
    · rw [if_neg h1] at hc
      by_cases h2 : 50 < (pyStrip part).length
      · rw [if_pos h2] at hc
        rcases ih _ _ _ hc with h | ⟨q, hq, hh, n, he⟩
        · rcases List.mem_append.mp h with h | h
          · exact Or.inl h
          · refine Or.inr ⟨part, List.mem_cons_self _ _, hdr, acc.length, ?_⟩
            simpa using h
        · exact Or.inr ⟨q, List.mem_cons_of_mem _ hq, hh, n, he⟩
      · rw [if_neg h2] at hc
        rcases ih _ _ _ hc with h | ⟨q, hq, hh, n, he⟩
        · exact Or.inl h
        · exact Or.inr ⟨q, List.mem_cons_of_mem _ hq, hh, n, he⟩

/-- Amended C4: whatever `re.split` produces, the loop
`for i, part in enumerate(splits)` opens with `if i == 0: continue`, so
the first split element — the text preceding the first match — is
dropped unconditionally: the loop's output is the same for any two
values of that first element, and every emitted Chunk is built from one
of the parts after it.  (This is a statement about the loop over the
split list, not about `re.split` itself, whose matches can span lines
and therefore depend on the preamble.) -/
theorem processParts_drops_preceding_text (p : Pat) (src : Str) (preA preB : Str)
    (rest : List Str) :
    processParts p src (preA :: rest) = processParts p src (preB :: rest)
    ∧ ∀ c ∈ processParts p src (preA :: rest),
        ∃ part ∈ rest, ∃ h n, c = mkHeaderChunk src h (pyStrip part) n := by
  constructor
  · rfl
  · intro c hc
    have hc2 : c ∈ ppGo p src "Introduction".data rest [] := hc
    rcases ppGo_mem p src rest "Introduction".data [] c hc2 with h | h
    · simp at h
    · exact h

/-- Witness for the amended C4 at a concrete pattern, preambles and
remainder. -/
theorem processParts_drops_preceding_text_witness :
    processParts Pat.numDotNum "guide.pdf".data
        ("alpha preamble".data :: ["1.1 Overview Text".data,
          "this body section surely contains more than fifty characters total".data]) =
      processParts Pat.numDotNum "guide.pdf".data
        ("totally different".data :: ["1.1 Overview Text".data,
          "this body section surely contains more than fifty characters total".data]) := by
  exact (processParts_drops_preceding_text Pat.numDotNum "guide.pdf".data
    "alpha preamble".data "totally different".data
    ["1.1 Overview Text".data,
     "this body section surely contains more than fifty characters total".data]).1

/- ---------------------------------------------------------------------
Claim C5 — the fixed-size windowing fallback.
--------------------------------------------------------------------- -/

def c5text : Str := 'a' :: (List.replicate 199 ' ' ++ ['b'])

def c5src : Str := "g.pdf".data

/-- Counterexample to C5: `c5text` is non-empty, 201 > 200 characters
long, and no heading pattern yields any chunk, yet `chunk_by_headers`
emits nothing — the only window rejoins to `"a b"` (3 ≤ 100 characters)
and is discarded. -/
theorem fallback_windowing_counterexample :
    c5text ≠ []
    ∧ 200 < c5text.length
    ∧ patterns.all (fun p => (splitOnNl c5text).all (fun l => !lineMatches p l)) = true
    ∧ chunk_by_headers c5text c5src = [] := by
  decide

/-- Amended C5: the fallback emits at least one chunk provided the first
400-word window rejoins to more than 100 characters (in particular the
all-but-whitespace inputs the spec has in mind); without that proviso a
long but whitespace-dominated input yields no chunk. -/
theorem fallback_windowing_emits_chunk (text src : Str)
    (h1 : patternChunks text src = [])
    (h2 : 200 < text.length)
    (h3 : 100 < (joinSp ((pySplit text).take (2000 / 5))).length) :
    chunk_by_headers text src ≠ [] := by
  have hw : pySplit text ≠ [] := by
    intro he
    rw [he] at h3
    simp [joinSp, List.intercalate] at h3
  have hcond : ((patternChunks text src).isEmpty && decide (200 < text.length)) = true := by
    rw [h1]
    simp only [List.isEmpty_nil, Bool.true_and, decide_eq_true_eq]
    exact h2
  unfold chunk_by_headers
  show (if ((patternChunks text src).isEmpty && decide (200 < text.length)) = true then
      fallbackGo src (pySplit text).length (pySplit text) []
    else patternChunks text src) ≠ []
  rw [if_pos hcond]
  rcases List.exists_cons_of_ne_nil hw with ⟨w, ws, hws⟩
  rw [hws]
  have h3b : 100 < (joinSp ((w :: ws).take (2000 / 5))).length := by
    rw [← hws]; exact h3
  simp only [List.length_cons, fallbackGo, if_pos h3b]
  intro he
  have hm := fallbackGo_length_mono src ws.length ((w :: ws).drop (2000 / 5))
    (([] : List GChunk)
      ++ [mkSectionChunk src (joinSp ((w :: ws).take (2000 / 5)))
            (List.length ([] : List GChunk))])
  rw [he] at hm
  simp at hm

/-- Witness for the amended C5: 201 repeated letters form one 201-character
word, the first window rejoins to itself, and a chunk is emitted. -/
theorem fallback_windowing_emits_chunk_witness :
    patternChunks (List.replicate 201 'x') c5src = []
    ∧ 200 < (List.replicate 201 'x' : Str).length
    ∧ 100 < (joinSp ((pySplit (List.replicate 201 'x')).take (2000 / 5))).length
    ∧ chunk_by_headers (List.replicate 201 'x') c5src ≠ [] := by
  refine ⟨by decide, by decide, by decide, ?_⟩
  exact fallback_windowing_emits_chunk (List.replicate 201 'x') c5src
    (by decide) (by decide) (by decide)

/- ---------------------------------------------------------------------
`scripts/rag/diff_analysis.py`

Vector components are real numbers (the script works on float32 arrays;
the claims below concern the cosine-similarity mathematics, which is
modelled exactly over `ℝ`).  The loaded vector store (`load_vector_db`)
is a parameter of type `Option DB` (`None` when the embeddings or
mapping file is missing); the embedding API, the classification oracle
(`generate_content` keyed by its two prompt interpolants), the JSON
parser, and the float formatter of the match header are parameters.
--------------------------------------------------------------------- -/

/-- The dictionary returned by `load_vector_db`: parallel `ids` and
`embeddings` arrays plus the id → text map built from
`chunk_mapping.json`. -/
structure DB where
  ids : List Str
  embeddings : List (List ℝ)
  texts : List (Str × Str)

/-- `VECTOR_DB['texts'].get(chunk_id, "")`. -/
def lookupText (m : List (Str × Str)) (id : Str) : Str :=
  ((m.find? (fun pr => pr.1 == id)).map (fun pr => pr.2)).getD []

/-- `get_embedding`: on any exception from the embedding call it logs and
returns `[0.0] * 768` — a 768-dimensional zero vector regardless of the
index's dimension. -/
def get_embedding (eap : Str → Except Unit (List ℝ)) (text : Str) : List ℝ :=
  match eap text with
  | .ok v => v
  | .error _ => List.replicate 768 0

/-- `np.dot` of two equal-length vectors. -/
def dotR (v w : List ℝ) : ℝ := (List.zipWith (fun a b => a * b) v w).sum

def sumSq (v : List ℝ) : ℝ := (v.map (fun x => x * x)).sum

/-- `np.linalg.norm` of one vector (L2). -/
noncomputable def l2norm (v : List ℝ) : ℝ := Real.sqrt (sumSq v)

/-- The ascending-by-score comparison underlying `np.argsort(scores)`,
completed to a total order by an index tiebreak.  numpy's default sort
is introsort: NOT stable in general, but a stable insertion sort below
its small-array cutoff, which covers every concrete argsort this file
evaluates.  The model fixes the stable choice; the theorems stated about
the program's search rely only on properties shared by every
ascending-by-score order (made explicit by the final conjunct of
`search_ordering_properties`), except the concrete two-element tie
counterexample, where numpy provably behaves as the stable model does. -/
def argsortRel (scores : List ℝ) (i j : Nat) : Prop :=
  scores.getD i 0 < scores.getD j 0 ∨ (scores.getD i 0 = scores.getD j 0 ∧ i ≤ j)

noncomputable instance argsortRelDecidable (scores : List ℝ) :
    DecidableRel (argsortRel scores) := fun i j => by
  unfold argsortRel
  infer_instance

/-- `np.argsort(scores)`: a permutation of `range(len(scores))` with
scores ascending (tie resolution as discussed at `argsortRel`). -/
noncomputable def argsort (scores : List ℝ) : List Nat :=
  List.insertionSort (argsortRel scores) (List.range scores.length)

/-- `scores = np.dot(vectors, query_vec) / (norms * query_norm)`. -/
noncomputable def searchScores (db : DB) (q : List ℝ) : List ℝ :=
  List.zipWith (fun v n => dotR v q / (n * l2norm q)) db.embeddings (db.embeddings.map l2norm)

/-- `top_indices = np.argsort(scores)[::-1][:3]`, with the `3` kept as a
parameter `k` (the spec's `search(index, queryVector, k)` contract;
`find_relevant_textbook_chunks` instantiates `k = 3`). -/
noncomputable def topIdx (db : DB) (q : List ℝ) (k : Nat) : List Nat :=
  ((argsort (searchScores db q)).reverse).take k

/-- Lines 105–122 of `diff_analysis.py` as the spec's similarity-search
contract, returning the `(chunk_id, scores[idx])` pairs the loop reads.
`np.linalg.norm(vectors, axis=1)` raises on an empty index (the loaded
`np.array([])` is 1-dimensional, so `axis=1` is out of bounds); a zero
query norm returns the empty result before `np.dot` is reached; `np.dot`
raises if the stored dimension differs from the query dimension. -/
noncomputable def search (db : DB) (q : List ℝ) (k : Nat) : Except Str (List (Str × ℝ)) :=
  if db.embeddings.isEmpty then
    .error "axis 1 is out of bounds for array of dimension 1".data
  else if l2norm q = 0 then .ok []
  else if db.embeddings.all (fun v => v.length == q.length) then
    .ok ((topIdx db q k).map (fun i => (db.ids.getD i [], (searchScores db q).getD i 0)))
  else .error "shapes not aligned".data

def unavailableMsg : Str := "Reference textbook content unavailable.".data

/-- The `context` string assembled from the top matches
(`--- MATCH (Score: {scores[idx]:.2f}) ---\n{text}` blocks joined by
blank lines); `fmt` is the float formatter `:.2f`. -/
noncomputable def joinBlocks (db : DB) (fmt : ℝ → Str) (pairs : List (Str × ℝ)) : Str :=
  List.intercalate "\n\n".data
    (pairs.map (fun pr => "--- MATCH (Score: ".data ++ fmt pr.2 ++ ") ---\n".data
      ++ lookupText db.texts pr.1))

/-- `find_relevant_textbook_chunks`: the sentinel string when the vector
store could not be loaded, otherwise embed the chunk (zero vector on
failure) and run the similarity search; a zero-norm query returns `""`. -/
noncomputable def find_relevant_textbook_chunks (dbOpt : Option DB)
    (eap : Str → Except Unit (List ℝ)) (fmt : ℝ → Str) (chunk : GChunk) : Except Str Str :=
  match dbOpt with
  | none => .ok unavailableMsg
  | some db =>
    match search db (get_embedding eap chunk.text) 3 with
    | .error e => .error e
    | .ok pairs => .ok (joinBlocks db fmt pairs)

/-- The oracle verdict dictionary: `{has_shift: false}` or the structured
shift object. -/
structure Verdict where
  has_shift : Bool
  topic : Str
  old_concept : Str
  new_concept : Str
  exam_relevance_score : Int
  reason : Str
deriving DecidableEq, Repr

def noShift : Verdict := ⟨false, [], [], [], 0, []⟩

/-- `response.text.strip().replace('```json', '').replace('```', '')`. -/
def stripFences (s : Str) : Str :=
  replaceAll "```".data [] (replaceAll "```json".data [] (pyStrip s))

/-- `if not textbook_context or "unavailable" in textbook_context`. -/
def skipContext (ctx : Str) : Bool :=
  ctx.isEmpty || decide ("unavailable".data <:+: ctx)

/-- `analyze_chunk`: retrieval errors propagate (the call to
`find_relevant_textbook_chunks` is outside the `try`), an empty or
sentinel context short-circuits to `{has_shift: False}`, and an oracle
exception or a JSON parse failure is caught and downgraded to
`{has_shift: False}`.  `orc` receives the two interpolants of
`DIFF_PROMPT` (each truncated to 4000 characters); `prs` is `json.loads`
restricted to verdict objects. -/
noncomputable def analyze_chunk (dbOpt : Option DB) (eap : Str → Except Unit (List ℝ))
    (orc : Str → Str → Except Unit Str) (prs : Str → Option Verdict) (fmt : ℝ → Str)
    (chunk : GChunk) : Except Str Verdict :=
  match find_relevant_textbook_chunks dbOpt eap fmt chunk with
  | .error e => .error e
  | .ok ctx =>
    if skipContext ctx then .ok noShift
    else
      match orc (chunk.text.take 4000) (ctx.take 4000) with
      | .error _ => .ok noShift
      | .ok resp =>
        match prs (stripFences resp) with
        | none => .ok noShift
        | some v => .ok v

def kwAny (kws : List Str) (s : Str) : Bool := kws.any (fun kw => decide (kw <:+: s))

/-- `detect_category`: first matching keyword set wins. -/
def detect_category (topic text : Str) : Str :=
  let combined := pyLower (topic ++ " ".data ++ text)
  if kwAny ["tuberculosis".data, " tb ".data, "dr-tb".data, "mdr-tb".data, "xdr-tb".data,
      "ntep".data, "rntcp".data, "dots".data] combined then "TB".data
  else if kwAny ["asthma".data, "gina".data, "bronchodilator".data, "ics-formoterol".data,
      "inhaler".data] combined then "Asthma".data
  else if kwAny ["ards".data, "acute respiratory distress".data, "ventilation".data,
      "plateau pressure".data] combined then "ARDS".data
  else if kwAny ["copd".data, "gold report".data, "emphysema".data,
      "chronic obstructive".data] combined then "COPD".data
  else if kwAny ["pneumonia".data, "cap ".data, "community-acquired".data] combined then
    "Pneumonia".data
  else "Other".data

/-- A trend entry `{**result, "source_guideline": ..., "category": ...}`. -/
structure TrendRecord where
  topic : Str
  old_concept : Str
  new_concept : Str
  exam_relevance_score : Int
  reason : Str
  source_guideline : Str
  category : Str
deriving DecidableEq, Repr

def mkTrend (v : Verdict) (src : Str) : TrendRecord :=
  { topic := v.topic
    old_concept := v.old_concept
    new_concept := v.new_concept
    exam_relevance_score := v.exam_relevance_score
    reason := v.reason
    source_guideline := src
    category := detect_category v.topic v.new_concept }

/-- The output object of `main`: `total_trends`, the deduplicated source
list (`list(set(...))`; Python's set order is unspecified, `dedup` is a
deterministic stand-in and no claim inspects the order), and the trends. -/
structure Report where
  total_trends : Nat
  sources_analyzed : List Str
  trends : List TrendRecord
deriving DecidableEq, Repr

/-- The chunk loop of `main`: analyze each chunk; an uncaught exception
aborts the run; `if result.get('has_shift')` appends a trend record. -/
noncomputable def mainGo (dbOpt : Option DB) (eap : Str → Except Unit (List ℝ))
    (orc : Str → Str → Except Unit Str) (prs : Str → Option Verdict) (fmt : ℝ → Str) :
    List GChunk → List TrendRecord → Except Str Report
  | [], trends =>
    .ok ⟨trends.length, (trends.map (fun t => t.source_guideline)).dedup, trends⟩
  | c :: cs, trends =>
    match analyze_chunk dbOpt eap orc prs fmt c with
    | .error e => .error e
    | .ok v =>
      if v.has_shift then mainGo dbOpt eap orc prs fmt cs (trends ++ [mkTrend v c.metadata.source])
      else mainGo dbOpt eap orc prs fmt cs trends

/-- `main` of `diff_analysis.py`, from loaded guideline chunks to the
report object it writes. -/
noncomputable def diff_analysis_main (dbOpt : Option DB) (eap : Str → Except Unit (List ℝ))
    (orc : Str → Str → Except Unit Str) (prs : Str → Option Verdict) (fmt : ℝ → Str)
    (chunks : List GChunk) : Except Str Report :=
  mainGo dbOpt eap orc prs fmt chunks []

/-- The trend record contributed by one chunk, if any: the characterising
function of the run's trend list. -/
noncomputable def trendOf (dbOpt : Option DB) (eap : Str → Except Unit (List ℝ))
    (orc : Str → Str → Except Unit Str) (prs : Str → Option Verdict) (fmt : ℝ → Str)
    (c : GChunk) : Option TrendRecord :=
  match analyze_chunk dbOpt eap orc prs fmt c with
  | .error _ => none
  | .ok v => if v.has_shift then some (mkTrend v c.metadata.source) else none

/- Helper lemmas for the diff-analysis claims. -/

theorem sumSq_replicate_zero : ∀ n : Nat, sumSq (List.replicate n (0 : ℝ)) = 0 := by
  intro n
  induction n with
  | zero => simp [sumSq]
  | succ n ih =>
    have hcons : sumSq ((0 : ℝ) :: List.replicate n 0) = 0 * 0 + sumSq (List.replicate n 0) := by
      simp [sumSq]
    rw [List.replicate_succ, hcons, ih]
    ring

theorem l2norm_replicate_zero (n : Nat) : l2norm (List.replicate n (0 : ℝ)) = 0 := by
  rw [l2norm, sumSq_replicate_zero, Real.sqrt_zero]

theorem search_zero_norm (db : DB) (q : List ℝ) (k : Nat)
    (hne : db.embeddings ≠ []) (hq : l2norm q = 0) : search db q k = .ok [] := by
  unfold search
  rw [if_neg (by simp [List.isEmpty_iff, hne]), if_pos hq]

theorem find_relevant_zero_norm (db : DB) (eap : Str → Except Unit (List ℝ))
    (fmt : ℝ → Str) (c : GChunk) (hne : db.embeddings ≠ [])
    (hq : l2norm (get_embedding eap c.text) = 0) :
    find_relevant_textbook_chunks (some db) eap fmt c = .ok [] := by
  simp only [find_relevant_textbook_chunks]
  rw [search_zero_norm db _ 3 hne hq]
  rfl

theorem analyze_zero_norm (db : DB) (eap : Str → Except Unit (List ℝ))
    (orc : Str → Str → Except Unit Str) (prs : Str → Option Verdict) (fmt : ℝ → Str)
    (c : GChunk) (hne : db.embeddings ≠ [])
    (hq : l2norm (get_embedding eap c.text) = 0) :
    analyze_chunk (some db) eap orc prs fmt c = .ok noShift := by
  unfold analyze_chunk
  rw [find_relevant_zero_norm db eap fmt c hne hq]
  rfl

/- ---------------------------------------------------------------------
Claim C7 — behaviour with zero baseline chunks.
--------------------------------------------------------------------- -/

def emptyDB : DB := ⟨[], [], []⟩

def gChunk1 : GChunk :=
  ⟨"g1".data, "guideline text".data, ⟨"src.pdf".data, "guideline".data, "topic".data⟩⟩

/-- Counterexample to C7: with an empty (rather than missing) baseline
index the run does not skip every chunk and complete — it aborts:
`np.linalg.norm(np.array([]), axis=1)` raises an axis error, which
`analyze_chunk` does not catch (the retrieval call is outside its `try`)
and `main` does not catch either. -/
theorem empty_index_aborts_counterexample :
    diff_analysis_main (some emptyDB) (fun _ => .error ()) (fun _ _ => .error ())
        (fun _ => none) (fun _ => []) [gChunk1]
      = .error "axis 1 is out of bounds for array of dimension 1".data := by
  rfl

/-- Amended C7: when the baseline index is unavailable (missing files,
`load_vector_db` returns `None`), every guideline chunk is skipped via
the sentinel context, the run completes, and the report is empty with
`total_trends = 0`; an empty-but-present index instead aborts the run. -/
theorem missing_index_all_skipped (eap : Str → Except Unit (List ℝ))
    (orc : Str → Str → Except Unit Str) (prs : Str → Option Verdict) (fmt : ℝ → Str)
    (chunks : List GChunk) :
    diff_analysis_main none eap orc prs fmt chunks = .ok ⟨0, [], []⟩ := by
  show mainGo none eap orc prs fmt chunks [] = _
  induction chunks with
  | nil => rfl
  | cons c cs ih =>
    have ha : analyze_chunk none eap orc prs fmt c = .ok noShift := by
      unfold analyze_chunk find_relevant_textbook_chunks
      have hskip : skipContext unavailableMsg = true := by decide
      simp [hskip]
    simp only [mainGo, ha]
    simpa [noShift] using ih

/- ---------------------------------------------------------------------
Claim C8 — zero-norm query vectors.
--------------------------------------------------------------------- -/

/-- Counterexample to C8: the claim quantifies over every index, but on
the empty index the zero-query search is an error, not an empty result —
the axis error from the norms computation precedes the zero-norm check,
and it aborts the analysis instead of skipping the chunk. -/
theorem zero_query_empty_index_counterexample :
    l2norm (get_embedding (fun _ => .error ()) gChunk1.text) = 0
    ∧ search emptyDB (get_embedding (fun _ => .error ()) gChunk1.text) 3
        = .error "axis 1 is out of bounds for array of dimension 1".data
    ∧ analyze_chunk (some emptyDB) (fun _ => .error ()) (fun _ _ => .error ())
        (fun _ => none) (fun _ => []) gChunk1
      = .error "axis 1 is out of bounds for array of dimension 1".data := by
  refine ⟨?_, rfl, rfl⟩
  exact l2norm_replicate_zero 768

/-- Amended C8: on every index holding at least one vector, a zero-norm
query — in particular the 768-zero vector substituted when the single
item embedding call fails — makes the search return the empty result
(defined behaviour, not an error), the context is empty, the chunk is
treated as `{has_shift: False}` (SKIPPED), and it contributes no trend
record. -/
theorem zero_norm_query_skips (db : DB) (eap : Str → Except Unit (List ℝ))
    (orc : Str → Str → Except Unit Str) (prs : Str → Option Verdict) (fmt : ℝ → Str)
    (c : GChunk) (hne : db.embeddings ≠ [])
    (hq : l2norm (get_embedding eap c.text) = 0) :
    search db (get_embedding eap c.text) 3 = .ok []
    ∧ find_relevant_textbook_chunks (some db) eap fmt c = .ok []
    ∧ analyze_chunk (some db) eap orc prs fmt c = .ok noShift
    ∧ trendOf (some db) eap orc prs fmt c = none := by
  refine ⟨search_zero_norm db _ 3 hne hq, find_relevant_zero_norm db eap fmt c hne hq,
    analyze_zero_norm db eap orc prs fmt c hne hq, ?_⟩
  unfold trendOf
  rw [analyze_zero_norm db eap orc prs fmt c hne hq]
  rfl

def db1 : DB := ⟨["a".data], [[(1 : ℝ), 0]], []⟩

/-- Witness for the amended C8: a one-vector index and a failing
embedding call. -/
theorem zero_norm_query_skips_witness :
    db1.embeddings ≠ []
    ∧ l2norm (get_embedding (fun _ => .error ()) gChunk1.text) = 0
    ∧ analyze_chunk (some db1) (fun _ => .error ()) (fun _ _ => .error ())
        (fun _ => none) (fun _ => []) gChunk1 = .ok noShift := by
  refine ⟨by simp [db1], l2norm_replicate_zero 768, ?_⟩
  exact (zero_norm_query_skips db1 (fun _ => .error ()) (fun _ _ => .error ())
    (fun _ => none) (fun _ => []) gChunk1 (by simp [db1])
    (l2norm_replicate_zero 768)).2.2.1

/- ---------------------------------------------------------------------
Claim C10 — the hard-coded 768-zero fallback vector.
--------------------------------------------------------------------- -/

def db2 : DB := ⟨["a".data], [[(1 : ℝ), 0]], []⟩

/-- Counterexample to C10's final clause: the downstream zero-vector skip
is not limited to 768-dimensional indexes.  On a 2-dimensional index the
failed-embedding fallback still yields a zero-norm query and the chunk is
skipped, because the `query_norm == 0` early return precedes `np.dot`
(where the dimension mismatch would matter). -/
theorem fallback_dim_independent_counterexample :
    db2.embeddings.all (fun v => v.length == 2) = true
    ∧ (2 : Nat) ≠ 768
    ∧ get_embedding (fun _ => .error ()) gChunk1.text = List.replicate 768 (0 : ℝ)
    ∧ find_relevant_textbook_chunks (some db2) (fun _ => .error ()) (fun _ => []) gChunk1
        = .ok []
    ∧ analyze_chunk (some db2) (fun _ => .error ()) (fun _ _ => .error ())
        (fun _ => none) (fun _ => []) gChunk1 = .ok noShift := by
  refine ⟨rfl, by decide, rfl, ?_, ?_⟩
  · exact find_relevant_zero_norm db2 (fun _ => .error ()) (fun _ => []) gChunk1
      (by simp [db2]) (l2norm_replicate_zero 768)
  · exact analyze_zero_norm db2 (fun _ => .error ()) (fun _ _ => .error ())
      (fun _ => none) (fun _ => []) gChunk1 (by simp [db2]) (l2norm_replicate_zero 768)

/-- Amended C10: whenever the single-item embedding call fails,
`get_embedding` returns exactly 768 zeros (the hard-coded constant,
independent of the index's dimension), and on any non-empty index —
whatever its dimension — the zero-norm early return still skips the
chunk, because it precedes the dot product. -/
theorem get_embedding_zero_fallback (eap : Str → Except Unit (List ℝ)) (fmt : ℝ → Str)
    (t : Str) (db : DB) (c : GChunk) (ht : eap t = .error ())
    (hc : eap c.text = .error ()) (hne : db.embeddings ≠ []) :
    get_embedding eap t = List.replicate 768 0
    ∧ find_relevant_textbook_chunks (some db) eap fmt c = .ok [] := by
  constructor
  · unfold get_embedding
    rw [ht]
  · refine find_relevant_zero_norm db eap fmt c hne ?_
    unfold get_embedding
    rw [hc]
    exact l2norm_replicate_zero 768

def db3 : DB := ⟨["a".data], [[(1 : ℝ), 2, 3]], []⟩

/-- Witness for the amended C10 on a 3-dimensional index. -/
theorem get_embedding_zero_fallback_witness :
    ((fun _ : Str => (.error () : Except Unit (List ℝ))) gChunk1.text = .error ())
    ∧ db3.embeddings ≠ []
    ∧ get_embedding (fun _ => .error ()) gChunk1.text = List.replicate 768 0
    ∧ find_relevant_textbook_chunks (some db3) (fun _ => .error ()) (fun _ => []) gChunk1
        = .ok [] := by
  refine ⟨rfl, by simp [db3], ?_, ?_⟩
  · exact (get_embedding_zero_fallback (fun _ => .error ()) (fun _ => []) gChunk1.text db3
      gChunk1 rfl rfl (by simp [db3])).1
  · exact (get_embedding_zero_fallback (fun _ => .error ()) (fun _ => []) gChunk1.text db3
      gChunk1 rfl rfl (by simp [db3])).2

/- ---------------------------------------------------------------------
Claim C1 — oracle/parse failures are contained.
--------------------------------------------------------------------- -/

theorem analyze_isOk (dbOpt : Option DB) (eap : Str → Except Unit (List ℝ))
    (orc : Str → Str → Except Unit Str) (prs : Str → Option Verdict) (fmt : ℝ → Str)
    (c : GChunk) (h : (find_relevant_textbook_chunks dbOpt eap fmt c).isOk = true) :
    (analyze_chunk dbOpt eap orc prs fmt c).isOk = true := by
  unfold analyze_chunk
  rcases hf : find_relevant_textbook_chunks dbOpt eap fmt c with e | ctx
  · rw [hf] at h
    exact Bool.noConfusion h
  · by_cases hsk : skipContext ctx = true
    · simp [hsk, Except.isOk, Except.toBool]
    · simp only [Bool.not_eq_true] at hsk
      rcases ho : orc (c.text.take 4000) (ctx.take 4000) with u | resp
      · simp [hsk, ho, Except.isOk, Except.toBool]
      · rcases hp : prs (stripFences resp) with _ | v
        · simp [hsk, ho, hp, Except.isOk, Except.toBool]
        · simp [hsk, ho, hp, Except.isOk, Except.toBool]

theorem mainGo_characterize (dbOpt : Option DB) (eap : Str → Except Unit (List ℝ))
    (orc : Str → Str → Except Unit Str) (prs : Str → Option Verdict) (fmt : ℝ → Str) :
    ∀ (cs : List GChunk) (trends : List TrendRecord),
      (∀ c ∈ cs, (analyze_chunk dbOpt eap orc prs fmt c).isOk = true) →
      ∃ rep, mainGo dbOpt eap orc prs fmt cs trends = .ok rep ∧
        rep.trends = trends ++ cs.filterMap (trendOf dbOpt eap orc prs fmt) ∧
        rep.total_trends = rep.trends.length := by
  intro cs
  induction cs with
  | nil =>
    intro trends _
    refine ⟨_, rfl, ?_, ?_⟩
    · show trends = trends ++ List.filterMap _ []
      simp
    · rfl
  | cons c cs ih =>
    intro trends h
    have hc := h c (by simp)
    rcases ha : analyze_chunk dbOpt eap orc prs fmt c with e | v
    · rw [ha] at hc
      exact Bool.noConfusion hc
    · by_cases hs : v.has_shift = true
      · obtain ⟨rep, h1, h2, h3⟩ := ih (trends ++ [mkTrend v c.metadata.source])
          (fun x hx => h x (List.mem_cons_of_mem _ hx))
        refine ⟨rep, ?_, ?_, h3⟩
        · simp only [mainGo, ha]
          rw [if_pos hs]
          exact h1
        · rw [h2]
          have ht : trendOf dbOpt eap orc prs fmt c = some (mkTrend v c.metadata.source) := by
            unfold trendOf; rw [ha]; simp [hs]
          simp [ht, List.filterMap_cons, List.append_assoc]
      · obtain ⟨rep, h1, h2, h3⟩ := ih trends (fun x hx => h x (List.mem_cons_of_mem _ hx))
        refine ⟨rep, ?_, ?_, h3⟩
        · simp only [mainGo, ha]
          rw [if_neg hs]
          exact h1
        · rw [h2]
          have ht : trendOf dbOpt eap orc prs fmt c = none := by
            unfold trendOf; rw [ha]; simp [hs]
          simp [ht, List.filterMap_cons]

/-- C1: for every guideline chunk whose retrieval step succeeds, an
oracle-call failure, or a raw response that does not parse as JSON after
stripping the code-fence markers, is caught and treated as
`{has_shift: False}`: that chunk contributes no trend record
(`trendOf c = none`, and the run's trend list is exactly the
`filterMap` of `trendOf`), and the run completes with a report rather
than aborting. -/
theorem analyze_failure_contained (dbOpt : Option DB) (eap : Str → Except Unit (List ℝ))
    (orc : Str → Str → Except Unit Str) (prs : Str → Option Verdict) (fmt : ℝ → Str)
    (chunks : List GChunk)
    (hok : ∀ c ∈ chunks, (find_relevant_textbook_chunks dbOpt eap fmt c).isOk = true) :
    (∃ rep, diff_analysis_main dbOpt eap orc prs fmt chunks = .ok rep ∧
        rep.trends = chunks.filterMap (trendOf dbOpt eap orc prs fmt) ∧
        rep.total_trends = rep.trends.length)
    ∧ ∀ c ∈ chunks, ∀ ctx, find_relevant_textbook_chunks dbOpt eap fmt c = .ok ctx →
        (orc (c.text.take 4000) (ctx.take 4000) = .error ()
          ∨ ∀ resp, orc (c.text.take 4000) (ctx.take 4000) = .ok resp →
              prs (stripFences resp) = none) →
        analyze_chunk dbOpt eap orc prs fmt c = .ok noShift
        ∧ trendOf dbOpt eap orc prs fmt c = none := by
  constructor
  · obtain ⟨rep, h1, h2, h3⟩ := mainGo_characterize dbOpt eap orc prs fmt chunks []
      (fun c hc => analyze_isOk dbOpt eap orc prs fmt c (hok c hc))
    exact ⟨rep, h1, by simpa using h2, h3⟩
  · intro c _ ctx hctx hfail
    have han : analyze_chunk dbOpt eap orc prs fmt c = .ok noShift := by
      unfold analyze_chunk
      rw [hctx]
      by_cases hsk : skipContext ctx = true
      · simp [hsk]
      · simp only [Bool.not_eq_true] at hsk
        rcases ho : orc (c.text.take 4000) (ctx.take 4000) with u | resp
        · simp [hsk, ho]
        · rcases hfail with hf | hf
          · rw [ho] at hf; simp at hf
          · have hpn := hf resp ho
            simp [hsk, ho, hpn]
    refine ⟨han, ?_⟩
    unfold trendOf
    rw [han]
    rfl

/-- Witness for C1: a missing baseline store (retrieval trivially
succeeds with the sentinel), an always-failing oracle and an
always-failing parser. -/
theorem analyze_failure_contained_witness :
    (diff_analysis_main none (fun _ => .error ()) (fun _ _ => .error ())
        (fun _ => none) (fun _ => []) [gChunk1]).isOk = true := by
  obtain ⟨rep, h1, _, _⟩ := (analyze_failure_contained none (fun _ => .error ())
    (fun _ _ => .error ()) (fun _ => none) (fun _ => []) [gChunk1] (fun c _ => rfl)).1
  rw [h1]
  rfl

/- ---------------------------------------------------------------------
Claims C6 and C9 — ordering of the similarity search.
--------------------------------------------------------------------- -/

theorem argsortRel_total (s : List ℝ) : ∀ i j, argsortRel s i j ∨ argsortRel s j i := by
  intro i j
  rcases lt_trichotomy (s.getD i 0) (s.getD j 0) with h | h | h
  · exact Or.inl (Or.inl h)
  · rcases Nat.le_total i j with hij | hij
    · exact Or.inl (Or.inr ⟨h, hij⟩)
    · exact Or.inr (Or.inr ⟨h.symm, hij⟩)
  · exact Or.inr (Or.inl h)

theorem argsortRel_trans (s : List ℝ) :
    ∀ i j k, argsortRel s i j → argsortRel s j k → argsortRel s i k := by
  intro i j k hij hjk
  rcases hij with h1 | ⟨e1, l1⟩ <;> rcases hjk with h2 | ⟨e2, l2⟩
  · exact Or.inl (h1.trans h2)
  · exact Or.inl (lt_of_lt_of_eq h1 e2)
  · exact Or.inl (lt_of_eq_of_lt e1 h2)
  · exact Or.inr ⟨e1.trans e2, l1.trans l2⟩

theorem argsort_sorted (s : List ℝ) : (argsort s).Sorted (argsortRel s) := by
  haveI : IsTotal Nat (argsortRel s) := ⟨argsortRel_total s⟩
  haveI : IsTrans Nat (argsortRel s) := ⟨argsortRel_trans s⟩
  exact List.sorted_insertionSort _ _

/-- Amended C6: on every non-empty, dimension-compatible index and every
query of nonzero norm, the search returns the `(chunk_id, score)` pairs
of the reversed, `k`-truncated argsort — at most `k` of them, with
scores non-increasing (highest cosine score first).  The final conjunct
states those two guarantees for every ascending-by-score index sequence,
i.e. for whatever tie resolution `np.argsort`'s default sort — which is
not stable in general — produces; no fixed tie order is asserted.  The
original claim's earlier-inserted-first tie order is refuted separately
by the concrete counterexample below. -/
theorem search_ordering_properties (db : DB) (q : List ℝ) (k : Nat)
    (hne : db.embeddings ≠ []) (hq : l2norm q ≠ 0)
    (hdim : db.embeddings.all (fun v => v.length == q.length) = true) :
    search db q k = .ok ((topIdx db q k).map
        (fun i => (db.ids.getD i [], (searchScores db q).getD i 0)))
    ∧ (topIdx db q k).length ≤ k
    ∧ ((topIdx db q k).map (fun i => (searchScores db q).getD i 0)).Pairwise
        (fun a b => b ≤ a)
    ∧ ∀ perm : List Nat,
        perm.Sorted (fun i j =>
          (searchScores db q).getD i 0 ≤ (searchScores db q).getD j 0) →
        ((perm.reverse.take k).map (fun i => (searchScores db q).getD i 0)).Pairwise
          (fun a b => b ≤ a)
        ∧ (perm.reverse.take k).length ≤ k := by
  have hgen : ∀ perm : List Nat,
      perm.Sorted (fun i j =>
        (searchScores db q).getD i 0 ≤ (searchScores db q).getD j 0) →
      ((perm.reverse.take k).map (fun i => (searchScores db q).getD i 0)).Pairwise
        (fun a b => b ≤ a)
      ∧ (perm.reverse.take k).length ≤ k := by
    intro perm hsorted
    constructor
    · rw [List.pairwise_map]
      have hrev : perm.reverse.Pairwise
          (fun i j => (searchScores db q).getD j 0 ≤ (searchScores db q).getD i 0) :=
        List.pairwise_reverse.mpr hsorted
      exact hrev.sublist (List.take_sublist _ _)
    · exact List.length_take_le _ _
  have hargsorted : (argsort (searchScores db q)).Sorted
      (fun i j => (searchScores db q).getD i 0 ≤ (searchScores db q).getD j 0) := by
    refine (argsort_sorted (searchScores db q)).imp ?_
    intro i j hij
    rcases hij with h | ⟨he, _⟩
    · exact le_of_lt h
    · exact le_of_eq he
  refine ⟨?_, List.length_take_le _ _, ?_, hgen⟩
  · unfold search
    rw [if_neg (by simp [List.isEmpty_iff, hne]), if_neg hq, if_pos hdim]
  · exact (hgen _ hargsorted).1

theorem sumSq_cons (a : ℝ) (t : List ℝ) : sumSq (a :: t) = a * a + sumSq t := by
  simp [sumSq]

theorem l2norm_one_zero : l2norm [(1 : ℝ), 0] = 1 := by
  have h : sumSq [(1 : ℝ), 0] = 1 := by norm_num [sumSq]
  rw [l2norm, h, Real.sqrt_one]

/-- Witness for the amended C6 on a one-vector index. -/
theorem search_ordering_properties_witness :
    db1.embeddings ≠ []
    ∧ l2norm [(1 : ℝ), 0] ≠ 0
    ∧ db1.embeddings.all (fun v => v.length == ([(1 : ℝ), 0]).length) = true
    ∧ search db1 [(1 : ℝ), 0] 3 = .ok ((topIdx db1 [(1 : ℝ), 0] 3).map
        (fun i => (db1.ids.getD i [], (searchScores db1 [(1 : ℝ), 0]).getD i 0))) := by
  refine ⟨by simp [db1], by rw [l2norm_one_zero]; norm_num, rfl, ?_⟩
  exact (search_ordering_properties db1 [(1 : ℝ), 0] 3 (by simp [db1])
    (by rw [l2norm_one_zero]; norm_num) rfl).1

def dbTie : DB := ⟨["a".data, "b".data], [[(1 : ℝ), 0], [(1 : ℝ), 0]], []⟩

/-- Counterexample to C6's tie-breaking clause: two identical stored
vectors score identically against the query, and the result lists the
later-inserted chunk `"b"` before the earlier-inserted `"a"` — not the
stable earlier-first order the claim states.  (At this array size —
below numpy's insertion-sort cutoff — `np.argsort` is a stable
insertion sort, so the model provably coincides with numpy here: the
ascending argsort keeps insertion order on the tie, and the `[::-1]`
reversal puts the later index first.) -/
theorem search_tie_order_counterexample :
    search dbTie [(1 : ℝ), 0] 3 = .ok [("b".data, 1), ("a".data, 1)]
    ∧ ¬ search dbTie [(1 : ℝ), 0] 3 = .ok [("a".data, 1), ("b".data, 1)] := by
  have hsc : searchScores dbTie [(1 : ℝ), 0] = [1, 1] := by
    norm_num [searchScores, dbTie, dotR, l2norm_one_zero]
  have hr : argsortRel [(1 : ℝ), 1] 0 1 := Or.inr ⟨rfl, by omega⟩
  have harg : argsort [(1 : ℝ), 1] = [0, 1] := by
    show List.insertionSort (argsortRel [(1 : ℝ), 1]) (List.range [(1 : ℝ), 1].length) = [0, 1]
    have hrange : List.range [(1 : ℝ), 1].length = [0, 1] := by
      norm_num [List.range_succ]
    rw [hrange]
    simp only [List.insertionSort, List.orderedInsert]
    rw [if_pos hr]
  have htop : topIdx dbTie [(1 : ℝ), 0] 3 = [1, 0] := by
    unfold topIdx
    rw [hsc, harg]
    rfl
  have hfirst : search dbTie [(1 : ℝ), 0] 3 = .ok [("b".data, 1), ("a".data, 1)] := by
    unfold search
    rw [if_neg (by simp [dbTie]), if_neg (by rw [l2norm_one_zero]; norm_num),
      if_pos (show (dbTie.embeddings.all fun v => v.length == [(1 : ℝ), 0].length) = true
        from rfl),
      htop, hsc]
    rfl
  refine ⟨hfirst, ?_⟩
  intro hcontra
  have hboth := hfirst.symm.trans hcontra
  simp only [Except.ok.injEq, List.cons.injEq, Prod.mk.injEq] at hboth
  exact absurd hboth.1.1 (by decide)

theorem zipWith_congr_fn {α β γ : Type} (f g : α → β → γ) (h : ∀ a b, f a b = g a b) :
    ∀ (l1 : List α) (l2 : List β), List.zipWith f l1 l2 = List.zipWith g l1 l2 := by
  intro l1
  induction l1 with
  | nil => intro l2; rfl
  | cons a t ih =>
    intro l2
    cases l2 with
    | nil => rfl
    | cons b s => simp [h, ih]

theorem sumSq_map_two (q : List ℝ) : sumSq (q.map (fun x => 2 * x)) = 4 * sumSq q := by
  induction q with
  | nil => simp [sumSq]
  | cons a t ih =>
    rw [List.map_cons, sumSq_cons, sumSq_cons, ih]
    ring

theorem l2norm_map_two (q : List ℝ) : l2norm (q.map (fun x => 2 * x)) = 2 * l2norm q := by
  rw [l2norm, l2norm, sumSq_map_two, show (4 : ℝ) = 2 ^ 2 by norm_num,
    Real.sqrt_mul (by positivity), Real.sqrt_sq (by norm_num)]

theorem dotR_cons (a b : ℝ) (t s : List ℝ) : dotR (a :: t) (b :: s) = a * b + dotR t s := by
  simp [dotR]

theorem dotR_map_two : ∀ v q : List ℝ, dotR v (q.map (fun x => 2 * x)) = 2 * dotR v q := by
  intro v
  induction v with
  | nil => intro q; simp [dotR]
  | cons a t ih =>
    intro q
    cases q with
    | nil => simp [dotR]
    | cons b s =>
      rw [List.map_cons, dotR_cons, dotR_cons, ih]
      ring

theorem searchScores_map_two (db : DB) (q : List ℝ) :
    searchScores db (q.map (fun x => 2 * x)) = searchScores db q := by
  unfold searchScores
  apply zipWith_congr_fn
  intro v n
  rw [dotR_map_two, l2norm_map_two, show n * (2 * l2norm q) = 2 * (n * l2norm q) by ring,
    mul_div_mul_left _ _ two_ne_zero]

/-- C9: for every index, every query of nonzero norm and every `k`, the
search result on the doubled query equals the search result on the
original query — over the reals, cosine-similarity scores (hence their
argsort and the emitted pairs) are invariant under positive scaling of
the query vector. -/
theorem search_scale_invariant (db : DB) (q : List ℝ) (k : Nat) (hq : l2norm q ≠ 0) :
    search db (q.map (fun x => 2 * x)) k = search db q k := by
  have hsc := searchScores_map_two db q
  by_cases he : db.embeddings.isEmpty = true
  · unfold search
    rw [if_pos he, if_pos he]
  · unfold search
    rw [if_neg he, if_neg he]
    have hz : ¬ l2norm (q.map (fun x => 2 * x)) = 0 := by
      rw [l2norm_map_two]
      exact mul_ne_zero two_ne_zero hq
    rw [if_neg hz, if_neg hq]
    unfold topIdx
    rw [hsc]
    simp only [List.length_map]

/-- Witness for C9 on a one-vector index and the query `[1, 0]`. -/
theorem search_scale_invariant_witness :
    l2norm [(1 : ℝ), 0] ≠ 0
    ∧ search db1 ([(1 : ℝ), 0].map (fun x => 2 * x)) 3 = search db1 [(1 : ℝ), 0] 3 := by
  refine ⟨by rw [l2norm_one_zero]; norm_num, ?_⟩
  exact search_scale_invariant db1 [(1 : ℝ), 0] 3 (by rw [l2norm_one_zero]; norm_num)
